import Mathlib

/-!
Verification development for the converter layer of `xtimer`
(`src/converters.py`): the time / duration pattern matchers
(`TIME_RE`, `DURATION_RE`), the value resolvers
(`TimeToNextDatetimeConverter.to_value`, `DurationConverter.to_value`)
and the formatters (`to_string`).

Modelling choices:
* A naive `datetime` is modelled as a `Nat` counting microseconds since an
  epoch midnight.  `datetime.replace(hour=h, minute=m, second=0,
  microsecond=0)` becomes `replaceHM`, `relativedelta(hours=12)` is adding
  `12 * usPerHour`, `relativedelta(days=1)` is adding `usPerDay` (naive
  datetimes, no timezones, so one day is exactly 24 hours).
* Strings are `List Char`; `re.IGNORECASE` is modelled by lowercasing the
  input with `toLowerChar` before matching (the resolver only inspects the
  matched text through `int(...)` and `p.lower().startswith('p')`, so this
  is behaviour-preserving).
* The two regexes are embedded as deterministic backtracking matchers that
  try alternatives in exactly the order Python's engine does; in particular
  the hour group `\d\d??` of `TIME_RE` is lazy: a one-digit hour is tried
  before a two-digit hour.
* The converters signal errors by mutating `self.error`; this is modelled
  by returning a `ConvResult` record holding the optional value and the
  optional error string.
-/

set_option maxRecDepth 100000

namespace XTimer

/-- Microseconds per second (a Python `datetime` has microsecond precision). -/
def usPerSec : Nat := 1000000

/-- Microseconds per minute. -/
def usPerMin : Nat := 60 * usPerSec

/-- Microseconds per hour. -/
def usPerHour : Nat := 60 * usPerMin

/-- Microseconds per day. -/
def usPerDay : Nat := 24 * usPerHour

/-- Midnight of the day containing `t` (the `date` part of a datetime). -/
def dateOf (t : Nat) : Nat := t / usPerDay * usPerDay

/-- The `hour` field (0-23) of a datetime. -/
def hourOf (t : Nat) : Nat := t / usPerHour % 24

/-- The `minute` field (0-59) of a datetime. -/
def minuteOf (t : Nat) : Nat := t / usPerMin % 60

/-- The `second` field (0-59) of a datetime. -/
def secondOf (t : Nat) : Nat := t / usPerSec % 60

/-- The `microsecond` field of a datetime. -/
def microsecondOf (t : Nat) : Nat := t % usPerSec

/-- `now.replace(hour=h, minute=m, second=0, microsecond=0)`. -/
def replaceHM (now h m : Nat) : Nat := dateOf now + h * usPerHour + m * usPerMin

/-- Python regex `\d` restricted to ASCII inputs: the characters `'0'..'9'`. -/
def isDigit (c : Char) : Bool := decide (48 ≤ c.toNat) && decide (c.toNat ≤ 57)

/-- Python regex `\s` restricted to ASCII inputs: space, tab, LF, VT, FF, CR. -/
def isSpace (c : Char) : Bool :=
  decide (c.toNat = 32) || decide (c.toNat = 9) || decide (c.toNat = 10) ||
  decide (c.toNat = 11) || decide (c.toNat = 12) || decide (c.toNat = 13)

/-- ASCII lowercasing of one character (`str.lower` on the inputs at hand). -/
def toLowerChar (c : Char) : Char :=
  if 65 ≤ c.toNat ∧ c.toNat ≤ 90 then Char.ofNat (c.toNat + 32) else c

/-- Numeric value of one ASCII digit character. -/
def digitVal (c : Char) : Nat := c.toNat - 48

/-- Python `int(...)` on a string of ASCII digits. -/
def digitsToNat (l : List Char) : Nat := l.foldl (fun a c => a * 10 + digitVal c) 0

/-! ## The TIME_RE matcher

`TIME_RE = ^(?P<hour>\d\d??)\s*:?\s*(?P<minute>\d\d?)?\s*(?P<p>pm?|am?)?$`
(case-insensitive).  The functions below run this pattern on a lowercased
input, trying alternatives in Python's backtracking order: the lazy `\d??`
of the hour group tries zero repetitions first, the greedy `\d\d?` of the
minute group tries two digits, then one, then the group absent, and
`pm?|am?` tries `pm`, `p`, `am`, `a` in that order.  The `\s*` pieces are
maximal-munch: no later token of the pattern can match a whitespace
character, so backtracking into them can never succeed and is omitted. -/

/-- The captured groups of a successful `TIME_RE` match. -/
structure TimeGroups where
  hour : List Char
  minute : Option (List Char)
  p : Option (List Char)
deriving DecidableEq, Repr

/-- Match the tail `(?P<p>pm?|am?)?$` of `TIME_RE` against the whole
remaining input, returning the captured `p` group.  Exactly the remainders
`""`, `"p"`, `"pm"`, `"a"`, `"am"` (already lowercased) can reach `$`. -/
def pTail (s : List Char) : Option (Option (List Char)) :=
  match s with
  | [] => some none
  | [c] => if c = 'p' ∨ c = 'a' then some (some [c]) else none
  | [c1, c2] => if (c1 = 'p' ∨ c1 = 'a') ∧ c2 = 'm' then some (some [c1, c2]) else none
  | _ => none

/-- Match `\s*(?P<p>pm?|am?)?$` against the remaining input. -/
def afterMinute (s : List Char) : Option (Option (List Char)) :=
  pTail (s.dropWhile isSpace)

/-- Match `(?P<minute>\d\d?)?\s*(?P<p>pm?|am?)?$` against the remaining
input, returning the captured `minute` and `p` groups.  The greedy
`\d\d?` tries two digits, then one digit, then the group absent. -/
def minuteTail (s : List Char) : Option (Option (List Char) × Option (List Char)) :=
  (match s with
   | c1 :: c2 :: rest =>
     if isDigit c1 && isDigit c2 then
       (afterMinute rest).map (fun p => (some [c1, c2], p))
     else none
   | _ => none)
  <|>
  (match s with
   | c1 :: rest =>
     if isDigit c1 then (afterMinute rest).map (fun p => (some [c1], p)) else none
   | _ => none)
  <|>
  (afterMinute s).map (fun p => ((none : Option (List Char)), p))

/-- Match `\s*:?\s*(?P<minute>\d\d?)?\s*(?P<p>pm?|am?)?$` against the
remaining input.  If the next non-space character is a colon it must be
consumed: no later token of the pattern can match `':'`. -/
def colonTail (s : List Char) : Option (Option (List Char) × Option (List Char)) :=
  match s.dropWhile isSpace with
  | [] => minuteTail []
  | c :: rest =>
    if c = ':' then minuteTail (rest.dropWhile isSpace)
    else minuteTail (c :: rest)

/-- `TIME_RE.match` on a lowercased input: the hour group `\d\d??` lazily
tries a one-digit hour first and extends to two digits only if the rest of
the pattern cannot match. -/
def timeMatch (s : List Char) : Option TimeGroups :=
  match s with
  | [] => none
  | c1 :: rest =>
    if isDigit c1 then
      ((colonTail rest).map (fun r => TimeGroups.mk [c1] r.1 r.2))
      <|>
      (match rest with
       | c2 :: rest2 =>
         if isDigit c2 then
           (colonTail rest2).map (fun r => TimeGroups.mk [c1, c2] r.1 r.2)
         else none
       | [] => none)
    else none

/-! ## The time resolver (`TimeToNextDatetimeConverter.to_value`) -/

/-- Result of a converter `to_value` call: the returned optional value
together with the `self.error` field it leaves behind. -/
structure ConvResult (α : Type) where
  value : Option α
  error : Option String
deriving DecidableEq, Repr

/-- `p.lower().startswith('p')` for an already-lowercased captured group. -/
def startsWithP (p : List Char) : Bool := p.head? = some 'p'

/-- The rollover arithmetic of `TimeToNextDatetimeConverter.to_value`
(lines 62-75): start from `now.replace(hour=hour % 12, minute=minute,
second=0, microsecond=0)`; with no meridiem, add 12 hours up to twice
while in the past; with a meridiem, add 12 hours when it starts with `p`,
then add one full day if still in the past. -/
def resolveTime (now hour minute : Nat) (p : Option (List Char)) : Nat :=
  let newTime := replaceHM now (hour % 12) minute
  match p with
  | none =>
    let t1 := if newTime < now then newTime + 12 * usPerHour else newTime
    if t1 < now then t1 + 12 * usPerHour else t1
  | some ps =>
    let t1 := if startsWithP ps then newTime + 12 * usPerHour else newTime
    if t1 < now then t1 + usPerDay else t1

/-- `TimeToNextDatetimeConverter.to_value`: empty input clears the field
(error `""`), a non-match reports `"Could not parse as time"`, an
out-of-range hour or minute reports its message, and otherwise the matched
fields are resolved against `now` by `resolveTime`.  (The source also
checks `minute < 0`, which cannot fire: the group is made of digits.) -/
def timeToValue (now : Nat) (s : List Char) : ConvResult Nat :=
  if s = [] then ⟨none, some ""⟩
  else
    match timeMatch (s.map toLowerChar) with
    | none => ⟨none, some "Could not parse as time"⟩
    | some g =>
      let hour := digitsToNat g.hour
      if hour < 1 ∨ hour > 12 then ⟨none, some "Hour must be 1-12"⟩
      else
        let minute := match g.minute with | none => 0 | some l => digitsToNat l
        if minute > 59 then ⟨none, some "Minute must be 0-59"⟩
        else ⟨some (resolveTime now hour minute g.p), none⟩

/-! ## The time formatter (`TimeToNextDatetimeConverter.to_string`)

The converter used for the editable field is constructed with the format
`"%#I:%M %p"` (gui.py), i.e. `%-I:%M %p` outside Windows: 12-hour hour
with no leading zero, two-digit minute, uppercase meridiem. -/

/-- One ASCII digit character. -/
def digitChar : Nat → Char
  | 0 => '0' | 1 => '1' | 2 => '2' | 3 => '3' | 4 => '4'
  | 5 => '5' | 6 => '6' | 7 => '7' | 8 => '8' | _ => '9'

/-- Decimal digits of `n` (structural fuel recursion; `str(n)`). -/
def natDigitsAux : Nat → Nat → List Char
  | 0, _ => []
  | fuel + 1, n =>
    if n < 10 then [digitChar n]
    else natDigitsAux fuel (n / 10) ++ [digitChar (n % 10)]

/-- Decimal rendering of a natural number, `str(n)`. -/
def natDigits (n : Nat) : List Char := natDigitsAux (n + 1) n

/-- The `%I` hour of a datetime: 12 for hours 0 and 12, else `hour % 12`. -/
def hour12 (t : Nat) : Nat := if hourOf t % 12 = 0 then 12 else hourOf t % 12

/-- Two-digit zero-padded rendering (`%M`) of a minute value. -/
def pad2 (n : Nat) : List Char := [digitChar (n / 10), digitChar (n % 10)]

/-- `TimeToNextDatetimeConverter.to_string` with the `"%-I:%M %p"` format:
empty for an absent value, else `H:MM AM/PM`. -/
def timeToString (v : Option Nat) : List Char :=
  match v with
  | none => []
  | some t =>
    natDigits (hour12 t) ++ ':' :: pad2 (minuteOf t) ++
      ' ' :: (if hourOf t < 12 then ['A', 'M'] else ['P', 'M'])

/-! ## The DURATION_RE matcher

`DURATION_RE = ^(?:(?P<hours>\d+(?:\.\d+)?)?\s*[h:]\s*)?(?P<minutes>\d+)?m?$`
(case-insensitive).  The outer group is tried present first.  Inside it the
greedy `\d+` groups are maximal-munch (shortening them leaves a digit in
front of a token that cannot match a digit, so backtracking into them can
never succeed), and the fractional part is taken exactly when a dot
followed by at least one digit is present.  If the whole outer group
cannot lead to a match it is retried absent, restarting from the start of
the input. -/

/-- The captured groups of a successful `DURATION_RE` match. -/
structure DurGroups where
  hours : Option (List Char)
  minutes : Option (List Char)
deriving DecidableEq, Repr

/-- Match `(?P<minutes>\d+)?m?$` against the whole remaining input: a
maximal run of digits (the group is absent when the run is empty) followed
by nothing or a single `m`. -/
def minutesTail (s : List Char) : Option (Option (List Char)) :=
  let ds := s.takeWhile isDigit
  let rest := s.dropWhile isDigit
  if rest = [] ∨ rest = ['m'] then
    some (if ds = [] then none else some ds)
  else none

/-- Match the hours group `(?P<hours>\d+(?:\.\d+)?)?`: a maximal digit run,
extended by `.` and a further maximal digit run when that run is nonempty.
Returns the captured text (or `none` when absent) and the rest. -/
def takeHours (s : List Char) : Option (List Char) × List Char :=
  let ds := s.takeWhile isDigit
  let rest := s.dropWhile isDigit
  if ds = [] then (none, s)
  else
    match rest with
    | '.' :: r2 =>
      let fs := r2.takeWhile isDigit
      if fs = [] then (some ds, rest)
      else (some (ds ++ '.' :: fs), r2.dropWhile isDigit)
    | _ => (some ds, rest)

/-- `DURATION_RE.match` on a lowercased input. -/
def durMatch (s : List Char) : Option DurGroups :=
  (let hr := takeHours s
   match hr.2.dropWhile isSpace with
   | c :: rest =>
     if c = 'h' ∨ c = ':' then
       (minutesTail (rest.dropWhile isSpace)).map (fun m => DurGroups.mk hr.1 m)
     else none
   | [] => none)
  <|>
  (minutesTail s).map (fun m => DurGroups.mk none m)

/-! ## The duration resolver (`DurationConverter.to_value`)

The source computes `round(float(str_hours) * 60 + mins)` in IEEE-754
double precision.  This is modelled faithfully: a finite non-negative
double is represented by the natural number `k` of its exact value
`k / 2 ^ 1074` (every finite double is an integer multiple of the
smallest subnormal `2 ^ -1074`), and `fpRoundRat a b` performs the
correct round-to-nearest, ties-to-even conversion of the exact rational
`a / b` onto that grid — covering normals, subnormals, and gradual
underflow to 0 — returning `none` when the rounded value reaches
`2 ^ 1024`, i.e. overflows to infinity.  `float(str)` is correctly
rounded in CPython (`strtod`), `x * 60.0` and `x + float(mins)` are
single correctly rounded operations, and `int`-to-`float` conversion and
`round` itself also round half to even, so each pipeline stage is one
`fpRoundRat` application. -/

/-- Numerator and fraction-digit count of a decimal literal: the captured
text `I` or `I.F` denotes `(digitsToNat I * 10 ^ F.length + digitsToNat F)
/ 10 ^ F.length`. -/
def decimalParts (l : List Char) : Nat × Nat :=
  let ip := l.takeWhile (fun c => c ≠ '.')
  let fp := (l.dropWhile (fun c => c ≠ '.')).drop 1
  (digitsToNat ip * 10 ^ fp.length + digitsToNat fp, fp.length)

/-- Round-to-nearest, ties-to-even of the rational `p / q` (`q > 0`) to an
integer: both Python's `round` on a float's exact value and the mantissa
rounding step of each IEEE operation. -/
def roundHalfEven (p q : Nat) : Nat :=
  let d := p / q
  let r := p % q
  if 2 * r < q then d
  else if q < 2 * r then d + 1
  else if d % 2 = 0 then d else d + 1

/-- Number of binary digits of `n` (0 for 0), by fuel recursion so that it
evaluates in the kernel. -/
def bitLenAux : Nat → Nat → Nat
  | 0, _ => 0
  | fuel + 1, n => if n = 0 then 0 else bitLenAux fuel (n / 2) + 1

/-- Number of binary digits of `n`; `bitLen n - 1` is `floor (log2 n)` for
`n ≥ 1`. -/
def bitLen (n : Nat) : Nat := bitLenAux n n

/-- Decide `b * 2 ^ i ≤ a` for a possibly negative exponent `i`. -/
def geShift (a b : Nat) (i : Int) : Bool :=
  if 0 ≤ i then decide (b * 2 ^ i.toNat ≤ a) else decide (b ≤ a * 2 ^ (-i).toNat)

/-- Correctly rounded conversion of the exact rational `a / b` (`b > 0`)
to a non-negative IEEE-754 double, returned as the scaled integer `k`
with value `k / 2 ^ 1074`, or `none` on overflow to infinity.  The unit
in the last place is `2 ^ (e - 52)` for a value in `[2 ^ e, 2 ^ (e + 1))`
down to the subnormal floor `2 ^ -1074`; the mantissa is rounded half to
even on that grid, and a result reaching `2 ^ 1024` overflows. -/
def fpRoundRat (a b : Nat) : Option Nat :=
  if a = 0 then some 0
  else
    let c : Int := (bitLen a : Int) - (bitLen b : Int)
    let e : Int := if geShift a b c then c else c - 1
    let u : Int := max (e - 52) (-1074)
    let m : Nat :=
      if 0 ≤ u then roundHalfEven a (b * 2 ^ u.toNat)
      else roundHalfEven (a * 2 ^ (-u).toNat) b
    let k : Nat := m * 2 ^ (u + 1074).toNat
    if 2 ^ 2098 ≤ k then none else some k

/-- `float(str_hours)`: the captured decimal literal, correctly rounded
to a double. -/
def floatOfDecimal (l : List Char) : Option Nat :=
  fpRoundRat (decimalParts l).1 (10 ^ (decimalParts l).2)

/-- `hours = 0.0`, overwritten with `float(str_hours)` when the group
matched. -/
def hoursFloat (o : Option (List Char)) : Option Nat :=
  match o with | none => some 0 | some l => floatOfDecimal l

/-- `int(str_mins)` with the group defaulting to 0 when absent. -/
def minsVal (o : Option (List Char)) : Nat :=
  match o with | none => 0 | some l => digitsToNat l

/-- `round(hours * 60 + mins)` in double arithmetic: multiply the hours
double by 60 (one rounding), convert `mins` to a double (one rounding,
exact below `2 ^ 53`), add (one rounding), then round half to even to an
integer.  `none` models the uncaught `OverflowError` that `round` raises
when the value has overflowed to infinity (the call never returns). -/
def totalMins (g : DurGroups) : Option Nat :=
  (hoursFloat g.hours).bind fun kh =>
  (fpRoundRat (kh * 60) (2 ^ 1074)).bind fun kp =>
  (fpRoundRat (minsVal g.minutes) 1).bind fun km =>
  (fpRoundRat (kp + km) (2 ^ 1074)).map fun kz =>
  roundHalfEven kz (2 ^ 1074)

/-- `DurationConverter.to_value`: empty input clears the field, a
non-match reports `"Could not parse as duration"`, and otherwise
`round(hours * 60 + mins)` minutes are returned.  (The source's
`total_mins < 0` check cannot fire: both groups are digit strings, so the
total is non-negative and the `"Duration must be positive"` error is
unreachable; the total is modelled as a `Nat`.  On a several-hundred-digit
hours literal the float pipeline overflows and the source raises an
uncaught `OverflowError` instead of returning; that never-returns case is
modelled as the result `⟨none, some "OverflowError"⟩`, a tag distinct
from every error message the source itself produces.) -/
def durToValue (s : List Char) : ConvResult Nat :=
  if s = [] then ⟨none, some ""⟩
  else
    match durMatch (s.map toLowerChar) with
    | none => ⟨none, some "Could not parse as duration"⟩
    | some g =>
      match totalMins g with
      | some total => ⟨some total, none⟩
      | none => ⟨none, some "OverflowError"⟩

/-! ## The duration formatter (`DurationConverter.to_string`)

The converter used by the step list is constructed with the template
`"{h}h {m}m"` (gui.py line 245) and renders
`self.format.format(h=value.hours, m=value.minutes)`.  A
`relativedelta(minutes=M)` with `M ≥ 0` normalises on construction
(`_fix`): minutes beyond 59 carry into hours, and hours beyond 23 carry
into days, so the fields read by the template are
`hours = M / 60 % 24` and `minutes = M % 60`; a resolved duration is
modelled by its total minute count `M`. -/

/-- The normalised `hours` field of `relativedelta(minutes=M)`, `M ≥ 0`:
full days are carried out of the hours field by `_fix`. -/
def rdHours (M : Nat) : Nat := M / 60 % 24

/-- The normalised `minutes` field of `relativedelta(minutes=M)`, `M ≥ 0`. -/
def rdMinutes (M : Nat) : Nat := M % 60

/-- `DurationConverter.to_string` with the template `"{h}h {m}m"`: empty
for an absent value, else the two normalised fields substituted into the
template as plain decimal numbers. -/
def durToString (v : Option Nat) : List Char :=
  match v with
  | none => []
  | some M => natDigits (rdHours M) ++ 'h' :: ' ' :: natDigits (rdMinutes M) ++ ['m']

/-! ## Basic character and digit lemmas -/

theorem isDigit_iff {c : Char} : isDigit c = true ↔ 48 ≤ c.toNat ∧ c.toNat ≤ 57 := by
  simp [isDigit]

theorem isSpace_eq_false_of_isDigit {c : Char} (h : isDigit c = true) : isSpace c = false := by
  rw [isDigit_iff] at h
  simp only [isSpace]
  simp only [Bool.or_eq_false_iff, decide_eq_false_iff_not]
  omega

theorem ne_colon_of_isDigit {c : Char} (h : isDigit c = true) : c ≠ ':' :=
  fun hc => absurd (hc ▸ h) (by decide)

theorem toLowerChar_of_isDigit {c : Char} (h : isDigit c = true) : toLowerChar c = c := by
  rw [isDigit_iff] at h
  unfold toLowerChar
  rw [if_neg (by omega)]

theorem isDigit_digitChar (n : Nat) : isDigit (digitChar n) = true := by
  unfold digitChar
  split <;> decide

theorem digitVal_digitChar {n : Nat} (h : n ≤ 9) : digitVal (digitChar n) = n := by
  interval_cases n <;> decide

theorem toLowerChar_digitChar (n : Nat) : toLowerChar (digitChar n) = digitChar n :=
  toLowerChar_of_isDigit (isDigit_digitChar n)

theorem digitsToNat_singleton (c : Char) : digitsToNat [c] = digitVal c := by
  simp [digitsToNat]

theorem digitsToNat_pair (c1 c2 : Char) :
    digitsToNat [c1, c2] = digitVal c1 * 10 + digitVal c2 := by
  simp [digitsToNat]

theorem digitsToNat_append_singleton (l : List Char) (c : Char) :
    digitsToNat (l ++ [c]) = digitsToNat l * 10 + digitVal c := by
  simp [digitsToNat, List.foldl_append]

/-! ## Claim theorems: concrete evaluations -/

/-- C1: evaluation of the code at the failing input.  With `now` at
11:00 AM, the bare input `"12"` does not resolve to 12:00 of a half-day:
the lazy hour group of `TIME_RE` captures hour `1` and minute `2`, so the
call returns 1:02 PM (13:02), a nonzero minute and not hour-12 — exactly
the defect recorded by the source's `FIXME: 12 -> 12:01 not 12:00`
comment.  (The second half of the claim does hold: `"12:00"` at the same
`now` resolves to 12:00 PM, also shown.) -/
theorem c1_bare_twelve_misreads :
    timeToValue (11 * usPerHour) ['1', '2'] =
      ⟨some (13 * usPerHour + 2 * usPerMin), none⟩ ∧
    13 * usPerHour + 2 * usPerMin ≠ 12 * usPerHour ∧
    minuteOf (13 * usPerHour + 2 * usPerMin) ≠ 0 ∧
    timeToValue (11 * usPerHour) ['1', '2', ':', '0', '0'] =
      ⟨some (12 * usPerHour), none⟩ := by
  refine ⟨by decide, by decide, by decide, by decide⟩

/-- C4 counterexample: the claim says resolving `"13"` yields
`HourOutOfRange` for every `now`, but at `now` = 10:00 AM the lazy hour
group parses `"13"` as hour `1`, minute `3`, and the call succeeds with
1:03 PM and no error. -/
theorem c4_counterexample :
    timeToValue (10 * usPerHour) ['1', '3'] =
      ⟨some (13 * usPerHour + 3 * usPerMin), none⟩ ∧
    (timeToValue (10 * usPerHour) ['1', '3']).error ≠ some "Hour must be 1-12" := by
  refine ⟨by decide, by decide⟩

/-- C4 amended: a two-digit out-of-range hour is only reportable when the
colon pins the grouping: for every `now`, `"13:00"` yields no value and
the `HourOutOfRange` error (`"Hour must be 1-12"`), while the bare `"13"`
matches as hour `1`, minute `3` and succeeds with no error. -/
theorem c4_colon_thirteen_out_of_range :
    ∀ now : Nat,
      timeToValue now ['1', '3', ':', '0', '0'] = ⟨none, some "Hour must be 1-12"⟩ ∧
      (timeToValue now ['1', '3']).error = none ∧
      (timeToValue now ['1', '3']).value.isSome = true :=
  fun _ => ⟨rfl, rfl, rfl⟩

/-- C5 counterexample: the claim says a non-empty all-separator input such
as `"h"` is a no-match (`UnparseableText`, no value), but `DURATION_RE`
matches `"h"` with both quantity groups absent and the converter returns a
zero-minute duration with no error. -/
theorem c5_counterexample :
    durToValue ['h'] = ⟨some 0, none⟩ ∧
    (durToValue ['h']).error ≠ some "Could not parse as duration" := by
  refine ⟨by decide, by decide⟩

/-- C5 amended: a non-empty digit-free input consisting of at most one
`h`/`:` separator optionally followed by `m` (such as `"h"`, `":"`,
`"m"`, `"hm"`) matches and resolves to a zero-minute duration with no
error; only separator combinations needing a second `h`/`:` (such as
`"h:m"`) are a no-match. -/
theorem c5_separator_only_inputs :
    durToValue ['h'] = ⟨some 0, none⟩ ∧
    durToValue [':'] = ⟨some 0, none⟩ ∧
    durToValue ['m'] = ⟨some 0, none⟩ ∧
    durToValue ['h', 'm'] = ⟨some 0, none⟩ ∧
    durToValue ['h', ':', 'm'] = ⟨none, some "Could not parse as duration"⟩ := by
  refine ⟨by decide, by decide, by decide, by decide, by decide⟩

/-- C7 counterexample: the claim's total `round(hours*60) + minutes`
disagrees with the code's `round(hours*60 + minutes)` at half-to-even
ties.  For `"0.125h1m"` (all float arithmetic exact: 0.125 is dyadic) the
code computes `round(7.5 + 1) = round(8.5) = 8`, while the claim's
formula gives `round(7.5) + 1 = 8 + 1 = 9`. -/
theorem c7_counterexample :
    durToValue ['0', '.', '1', '2', '5', 'h', '1', 'm'] = ⟨some 8, none⟩ ∧
    roundHalfEven (125 * 60) 1000 + 1 = 9 ∧ (8 : Nat) ≠ 9 := by
  refine ⟨by decide, by decide, by decide⟩

/-- C9 counterexample: two parts of the claim fail.  `{m}` is not
zero-padded: 65 minutes formats as `"1h 5m"`, not `"1h 05m"`.  And `{h}`
is not `M div 60`: `relativedelta` carries full days out of the hours
field, so 1500 minutes (`1500 / 60 = 25`) formats as `"1h 0m"`, not
`"25h 0m"`. -/
theorem c9_counterexample :
    durToString (some 65) = ['1', 'h', ' ', '5', 'm'] ∧
    durToString (some 65) ≠ ['1', 'h', ' ', '0', '5', 'm'] ∧
    1500 / 60 = 25 ∧
    durToString (some 1500) = ['1', 'h', ' ', '0', 'm'] ∧
    durToString (some 1500) ≠ ['2', '5', 'h', ' ', '0', 'm'] := by
  refine ⟨by decide, by decide, by decide, by decide, by decide⟩

/-- C10 counterexample: the claim concludes that no bare two-digit input
is ever reported as `HourOutOfRange`, but `"05"` is matched with hour
`0`, minute `5`, and the resolver rejects hour `0` with
`"Hour must be 1-12"`. -/
theorem c10_counterexample :
    timeToValue 0 ['0', '5'] = ⟨none, some "Hour must be 1-12"⟩ := by
  decide

/-- C6 counterexample: formatting a still-future timestamp and re-parsing
it does not always reproduce it.  For `t` = 1:00 PM tomorrow and `now` =
midnight today (`now ≤ t`), `format_time(t) = "1:00 PM"` re-resolves to
1:00 PM *today*, not `t`. -/
theorem c6_counterexample :
    (0 : Nat) ≤ usPerDay + 13 * usPerHour ∧
    timeToString (some (usPerDay + 13 * usPerHour)) = ['1', ':', '0', '0', ' ', 'P', 'M'] ∧
    (timeToValue 0 (timeToString (some (usPerDay + 13 * usPerHour)))).value =
      some (13 * usPerHour) ∧
    13 * usPerHour ≠ usPerDay + 13 * usPerHour := by
  refine ⟨by decide, by decide, by decide, by decide⟩

/-! ## Claim theorems: resolver arithmetic -/

theorem resolveTime_ge_and_whole_minute (now hour minute : Nat) (p : Option (List Char)) :
    now ≤ resolveTime now hour minute p ∧ resolveTime now hour minute p % usPerMin = 0 := by
  unfold resolveTime replaceHM dateOf
  cases p with
  | none =>
    simp only [usPerDay, usPerHour, usPerMin, usPerSec]
    split_ifs <;> constructor <;> omega
  | some ps =>
    simp only [usPerDay, usPerHour, usPerMin, usPerSec]
    split_ifs <;> constructor <;> omega

/-- C2: with no meridiem and a valid hour 1-12, minute 0-59, the resolver
returns a timestamp that is at least `now`, is one of the three candidates
`c`, `c + 12h`, `c + 24h` (today-AM-ish, today-PM-ish, tomorrow-AM-ish)
for `c` = today at `(hour % 12):minute`, and is the earliest candidate
that is `≥ now`: `c` itself when `c ≥ now`, else `c + 12h` when that is
`≥ now`, else `c + 24h`. -/
theorem c2_no_meridiem_earliest (now h m : Nat) (h1 : 1 ≤ h) (h2 : h ≤ 12) (h3 : m ≤ 59) :
    now ≤ resolveTime now h m none ∧
    (resolveTime now h m none = replaceHM now (h % 12) m ∨
     resolveTime now h m none = replaceHM now (h % 12) m + 12 * usPerHour ∨
     resolveTime now h m none = replaceHM now (h % 12) m + 24 * usPerHour) ∧
    (now ≤ replaceHM now (h % 12) m → resolveTime now h m none = replaceHM now (h % 12) m) ∧
    (replaceHM now (h % 12) m < now → now ≤ replaceHM now (h % 12) m + 12 * usPerHour →
      resolveTime now h m none = replaceHM now (h % 12) m + 12 * usPerHour) ∧
    (replaceHM now (h % 12) m + 12 * usPerHour < now →
      resolveTime now h m none = replaceHM now (h % 12) m + 24 * usPerHour) := by
  unfold resolveTime replaceHM dateOf
  simp only [usPerDay, usPerHour, usPerMin, usPerSec]
  split_ifs <;> refine ⟨by omega, by omega, by omega, by omega, by omega⟩

/-- C2 witness: at `now` = 12:30 PM, hour 1, minute 0, the AM candidate
1:00 AM is past, so the resolver picks the PM candidate 1:00 PM. -/
theorem c2_no_meridiem_earliest_witness :
    1 ≤ 1 ∧ 1 ≤ 12 ∧ 0 ≤ 59 ∧
    12 * usPerHour + 30 * usPerMin ≤ resolveTime (12 * usPerHour + 30 * usPerMin) 1 0 none ∧
    resolveTime (12 * usPerHour + 30 * usPerMin) 1 0 none =
      replaceHM (12 * usPerHour + 30 * usPerMin) (1 % 12) 0 + 12 * usPerHour :=
  ⟨by decide, by decide, by decide,
    (c2_no_meridiem_earliest (12 * usPerHour + 30 * usPerMin) 1 0
      (by decide) (by decide) (by decide)).1,
    (c2_no_meridiem_earliest (12 * usPerHour + 30 * usPerMin) 1 0
      (by decide) (by decide) (by decide)).2.2.2.1 (by decide) (by decide)⟩

/-- C3: with a PM meridiem and a valid hour 1-12, minute 0-59, the
resolver adds 12 hours to the AM candidate `c` = today at
`(hour % 12):minute`; the result is at least `now`, always lands in the
PM half of a day (`hour` field 12-23), equals `c + 12h` or `c + 12h` plus
one full day, and rolls forward by exactly one full day (never another 12
hours) when `c + 12h` is before `now`. -/
theorem c3_pm_rolls_full_day (now h m : Nat) (ps : List Char)
    (h1 : 1 ≤ h) (h2 : h ≤ 12) (h3 : m ≤ 59) (hp : startsWithP ps = true) :
    now ≤ resolveTime now h m (some ps) ∧
    12 ≤ hourOf (resolveTime now h m (some ps)) ∧
    (resolveTime now h m (some ps) = replaceHM now (h % 12) m + 12 * usPerHour ∨
     resolveTime now h m (some ps) = replaceHM now (h % 12) m + 12 * usPerHour + usPerDay) ∧
    (replaceHM now (h % 12) m + 12 * usPerHour < now →
      resolveTime now h m (some ps) = replaceHM now (h % 12) m + 12 * usPerHour + usPerDay) := by
  unfold resolveTime replaceHM dateOf hourOf
  simp only [hp, if_true, usPerDay, usPerHour, usPerMin, usPerSec]
  split_ifs <;> refine ⟨by omega, by omega, by omega, by omega⟩

/-- C3 witness: the claim's particular case.  `"1pm"` entered at `now` =
2:00 PM parses as hour 1, minute 0, meridiem `pm`, and resolves to 1:00 PM
of the next day (a full-day roll), which the general theorem pins down. -/
theorem c3_pm_rolls_full_day_witness :
    startsWithP ['p', 'm'] = true ∧
    resolveTime (14 * usPerHour) 1 0 (some ['p', 'm']) =
      replaceHM (14 * usPerHour) (1 % 12) 0 + 12 * usPerHour + usPerDay ∧
    timeToValue (14 * usPerHour) ['1', 'p', 'm'] = ⟨some (usPerDay + 13 * usPerHour), none⟩ :=
  ⟨by decide,
    (c3_pm_rolls_full_day (14 * usPerHour) 1 0 ['p', 'm']
      (by decide) (by decide) (by decide) (by decide)).2.2.2 (by decide),
    by decide⟩

theorem sec_micro_zero_of_whole_minute {t : Nat} (h : t % usPerMin = 0) :
    secondOf t = 0 ∧ microsecondOf t = 0 := by
  simp only [secondOf, microsecondOf, usPerMin, usPerSec] at *
  omega

/-- C8: every non-`None` timestamp returned by the time converter, in all
three meridiem branches, is at least the `now` passed to the call and has
zero seconds and microseconds. -/
theorem c8_resolved_invariant (now : Nat) (s : List Char) (t : Nat)
    (h : (timeToValue now s).value = some t) :
    now ≤ t ∧ secondOf t = 0 ∧ microsecondOf t = 0 := by
  unfold timeToValue at h
  split at h
  · simp at h
  · split at h
    · simp at h
    · rename_i g hg
      rcases g with ⟨gh, gm, gp⟩
      have hfin : ∀ A B : Nat, some (resolveTime now A B gp) = some t →
          now ≤ t ∧ secondOf t = 0 ∧ microsecondOf t = 0 := by
        intro A B hEq
        obtain rfl : resolveTime now A B gp = t := Option.some.inj hEq
        obtain ⟨hge, hmod⟩ := resolveTime_ge_and_whole_minute now A B gp
        exact ⟨hge, sec_micro_zero_of_whole_minute hmod⟩
      cases gm with
      | none =>
        split at h
        · dsimp only at h
          by_cases hh : digitsToNat gh < 1 ∨ digitsToNat gh > 12
          · rw [if_pos hh] at h
            simp at h
          · rw [if_neg hh, if_neg (by omega : ¬(0 : Nat) > 59)] at h
            exact hfin _ _ h
        · rename_i heq
          simp at heq
      | some l =>
        split at h
        · rename_i heq
          simp at heq
        · rename_i ps heq
          dsimp only at h
          by_cases hh : digitsToNat gh < 1 ∨ digitsToNat gh > 12
          · rw [if_pos hh] at h
            simp at h
          · rw [if_neg hh] at h
            by_cases hm : digitsToNat ps > 59
            · rw [if_pos hm] at h
              simp at h
            · rw [if_neg hm] at h
              exact hfin _ _ h

/-- C8 witness: at `now` = 0 the input `"1"` resolves to 1:00 AM today,
which is at least `now` and has zero seconds and microseconds. -/
theorem c8_resolved_invariant_witness :
    (timeToValue 0 ['1']).value = some usPerHour ∧
    0 ≤ usPerHour ∧ secondOf usPerHour = 0 ∧ microsecondOf usPerHour = 0 :=
  ⟨by decide, c8_resolved_invariant 0 ['1'] usPerHour (by decide)⟩

/-! ## Claim theorems: duration formula, formatting, lazy two-digit matcher -/

theorem char_eq_of_toNat_eq {a b : Char} (h : a.toNat = b.toNat) : a = b :=
  Char.eq_of_val_eq (UInt32.ext h)

theorem digitsToNat_natDigitsAux :
    ∀ fuel n : Nat, n < 10 ^ fuel → digitsToNat (natDigitsAux fuel n) = n := by
  intro fuel
  induction fuel with
  | zero =>
    intro n h
    rw [pow_zero] at h
    obtain rfl : n = 0 := by omega
    rfl
  | succ f ih =>
    intro n h
    simp only [natDigitsAux]
    split
    · rename_i h10
      rw [digitsToNat_singleton, digitVal_digitChar (by omega)]
    · rename_i h10
      have hdiv : n / 10 < 10 ^ f := by
        rw [Nat.div_lt_iff_lt_mul (by norm_num)]
        rw [pow_succ] at h
        exact h
      rw [digitsToNat_append_singleton, ih (n / 10) hdiv, digitVal_digitChar (by omega)]
      omega

theorem digitsToNat_natDigits (n : Nat) : digitsToNat (natDigits n) = n :=
  digitsToNat_natDigitsAux (n + 1) n
    (lt_of_lt_of_le (Nat.lt_pow_self (by norm_num) n)
      (Nat.pow_le_pow_right (by norm_num) (Nat.le_succ n)))

/-- C7 amended: for every matched duration input on which the float
pipeline does not overflow, the resolved total in minutes is
`round(hours * 60 + minutes)` computed in IEEE-754 double arithmetic with
half-to-even rounding (`totalMins`) — not `round(hours*60) + minutes` as
originally claimed — with the hours literal correctly rounded to a double
and defaulting to 0, minutes defaulting to 0, and the non-negative result
is returned with no error (the `NegativeDuration` branch is dead). -/
theorem c7_total_is_round_of_sum (s : List Char) (g : DurGroups) (total : Nat)
    (hs : s ≠ []) (hm : durMatch (s.map toLowerChar) = some g)
    (ht : totalMins g = some total) :
    durToValue s = ⟨some total, none⟩ := by
  unfold durToValue
  rw [if_neg hs, hm]
  dsimp only
  rw [ht]

/-- C7 witness: the claim's three examples via the general theorem —
`"1h30m"`, `"90"` and `"1.5h"` all resolve to exactly 90 minutes (their
float arithmetic is exact, so the double computation agrees with the
exact `round(hours*60 + minutes)`) — and a tie case where only the
double semantics gives the program's answer: `"0.0249999999999999999h"`
resolves to 2, because the literal parses to the double nearest 0.025
and the product lands exactly on 1.5. -/
theorem c7_total_is_round_of_sum_witness :
    totalMins ⟨some ['1'], some ['3', '0']⟩ = some 90 ∧
    durToValue ['1', 'h', '3', '0', 'm'] = ⟨some 90, none⟩ ∧
    durToValue ['9', '0'] = ⟨some 90, none⟩ ∧
    durToValue ['1', '.', '5', 'h'] = ⟨some 90, none⟩ ∧
    durToValue ['0', '.', '0', '2', '4', '9', '9', '9', '9', '9', '9', '9', '9', '9', '9', '9', '9', '9', '9', '9', '9', 'h'] = ⟨some 2, none⟩ :=
  ⟨by decide,
   c7_total_is_round_of_sum ['1', 'h', '3', '0', 'm'] ⟨some ['1'], some ['3', '0']⟩ 90
     (by decide) (by decide) (by decide),
   c7_total_is_round_of_sum ['9', '0'] ⟨none, some ['9', '0']⟩ 90
     (by decide) (by decide) (by decide),
   c7_total_is_round_of_sum ['1', '.', '5', 'h'] ⟨some ['1', '.', '5'], none⟩ 90
     (by decide) (by decide) (by decide),
   c7_total_is_round_of_sum
     ['0', '.', '0', '2', '4', '9', '9', '9', '9', '9', '9', '9', '9', '9', '9', '9', '9', '9', '9', '9', '9', 'h']
     ⟨some ['0', '.', '0', '2', '4', '9', '9', '9', '9', '9', '9', '9', '9', '9', '9', '9', '9', '9', '9', '9', '9'], none⟩ 2
     (by decide) (by decide) (by decide)⟩

/-- C9 amended: the duration formatter substitutes `{h}` = the
normalised hours field `M / 60 % 24` (the `relativedelta` carries full
days out of `{h}`) and `{m}` = the minutes remainder `M % 60` — rendered
as plain decimal numbers, with no zero padding — into the template
`"{h}h {m}m"`, and renders the empty string for an absent value. -/
theorem c9_template_substitution :
    durToString none = [] ∧
    ∀ M : Nat, ∃ hs ms : List Char,
      durToString (some M) = hs ++ 'h' :: ' ' :: ms ++ ['m'] ∧
      digitsToNat hs = M / 60 % 24 ∧ digitsToNat ms = M % 60 :=
  ⟨rfl, fun M =>
    ⟨natDigits (M / 60 % 24), natDigits (M % 60), rfl,
      digitsToNat_natDigits _, digitsToNat_natDigits _⟩⟩

/-- C10 amended: for every bare two-digit input, the time pattern matcher
succeeds with hour = the first digit alone and minute = the second digit
(the lazy hour group), and such an input is reported as `HourOutOfRange`
exactly when its first digit is `0` (so `"05"` is rejected while every
first digit 1-9 is accepted). -/
theorem c10_two_digit_lazy (now : Nat) (c1 c2 : Char)
    (h1 : isDigit c1 = true) (h2 : isDigit c2 = true) :
    timeMatch [c1, c2] = some ⟨[c1], some [c2], none⟩ ∧
    ((timeToValue now [c1, c2]).error = some "Hour must be 1-12" ↔ c1 = '0') := by
  have hb1 := isDigit_iff.mp h1
  have hb2 := isDigit_iff.mp h2
  have hmatch : timeMatch [c1, c2] = some ⟨[c1], some [c2], none⟩ := by
    unfold timeMatch colonTail minuteTail afterMinute
    simp [h1, h2, List.dropWhile_cons, isSpace_eq_false_of_isDigit h2,
      ne_colon_of_isDigit h2, pTail]
  refine ⟨hmatch, ?_⟩
  have hlow : List.map toLowerChar [c1, c2] = [c1, c2] := by
    simp [toLowerChar_of_isDigit h1, toLowerChar_of_isDigit h2]
  unfold timeToValue
  rw [if_neg (by simp), hlow, hmatch]
  dsimp only
  have hz : ('0' : Char).toNat = 48 := by decide
  have hhour : digitsToNat [c1] = c1.toNat - 48 := by
    rw [digitsToNat_singleton]; rfl
  have hmin : digitsToNat [c2] = c2.toNat - 48 := by
    rw [digitsToNat_singleton]; rfl
  rw [hhour, hmin]
  by_cases hc : c1.toNat = 48
  · rw [if_pos (by omega)]
    constructor
    · intro _
      exact char_eq_of_toNat_eq (by omega)
    · intro _
      rfl
  · rw [if_neg (by omega), if_neg (by omega)]
    constructor
    · intro hfalse
      exact absurd hfalse (by simp)
    · intro hc0
      rw [hc0, hz] at hc
      exact absurd rfl hc

/-- C10 witness: at first digit `0` the two-digit input `"05"` matches as
hour `0`, minute `5` and is the `HourOutOfRange` case of the amended
dichotomy. -/
theorem c10_two_digit_lazy_witness :
    isDigit '0' = true ∧ isDigit '5' = true ∧
    timeMatch ['0', '5'] = some ⟨['0'], some ['5'], none⟩ ∧
    ((timeToValue 0 ['0', '5']).error = some "Hour must be 1-12" ↔ '0' = '0') :=
  ⟨by decide, by decide,
    (c10_two_digit_lazy 0 '0' '5' (by decide) (by decide)).1,
    (c10_two_digit_lazy 0 '0' '5' (by decide) (by decide)).2⟩

/-! ## Matching the formatter's own output (for the round-trip claim) -/

theorem lower_colon : toLowerChar ':' = ':' := by decide

theorem lower_space : toLowerChar ' ' = ' ' := by decide

theorem lower_A : toLowerChar 'A' = 'a' := by decide

theorem lower_M : toLowerChar 'M' = 'm' := by decide

theorem lower_P : toLowerChar 'P' = 'p' := by decide

theorem afterMinute_space_p {P : List Char} (hP : P = ['a', 'm'] ∨ P = ['p', 'm']) :
    afterMinute (' ' :: P) = some (some P) := by
  rcases hP with h | h <;> subst h <;> decide

theorem minuteTail_fmt {a b : Char} {P : List Char}
    (ha : isDigit a = true) (hb : isDigit b = true)
    (hP : P = ['a', 'm'] ∨ P = ['p', 'm']) :
    minuteTail (a :: b :: ' ' :: P) = some (some [a, b], some P) := by
  unfold minuteTail
  simp [ha, hb, afterMinute_space_p hP]

theorem colonTail_fmt {a b : Char} {P : List Char}
    (ha : isDigit a = true) (hb : isDigit b = true)
    (hP : P = ['a', 'm'] ∨ P = ['p', 'm']) :
    colonTail (':' :: a :: b :: ' ' :: P) = some (some [a, b], some P) := by
  unfold colonTail
  have hs : isSpace ':' = false := by decide
  simp [List.dropWhile_cons, hs, isSpace_eq_false_of_isDigit ha, minuteTail_fmt ha hb hP]

theorem pTail_long (c1 c2 c3 : Char) (l : List Char) : pTail (c1 :: c2 :: c3 :: l) = none := rfl

theorem minuteTail_colon_fmt {c2 : Char} (hc2 : isDigit c2 = true) (a b : Char) (P : List Char) :
    minuteTail (c2 :: ':' :: a :: b :: ' ' :: P) = none := by
  unfold minuteTail
  have hd : isDigit ':' = false := by decide
  have hs : isSpace ':' = false := by decide
  simp [hc2, hd, afterMinute, List.dropWhile_cons, isSpace_eq_false_of_isDigit hc2, hs,
    pTail_long]

theorem timeMatch_fmt1 {c a b : Char} {P : List Char}
    (hc : isDigit c = true) (ha : isDigit a = true) (hb : isDigit b = true)
    (hP : P = ['a', 'm'] ∨ P = ['p', 'm']) :
    timeMatch (c :: ':' :: a :: b :: ' ' :: P) = some ⟨[c], some [a, b], some P⟩ := by
  unfold timeMatch
  simp [hc, colonTail_fmt ha hb hP]

theorem timeMatch_fmt2 {c2 a b : Char} {P : List Char}
    (hc2 : isDigit c2 = true) (ha : isDigit a = true) (hb : isDigit b = true)
    (hP : P = ['a', 'm'] ∨ P = ['p', 'm']) :
    timeMatch ('1' :: c2 :: ':' :: a :: b :: ' ' :: P) =
      some ⟨['1', c2], some [a, b], some P⟩ := by
  unfold timeMatch
  have h1 : isDigit '1' = true := by decide
  have hcol : colonTail (c2 :: ':' :: a :: b :: ' ' :: P) = none := by
    unfold colonTail
    simp [List.dropWhile_cons, isSpace_eq_false_of_isDigit hc2, ne_colon_of_isDigit hc2,
      minuteTail_colon_fmt hc2]
  simp [h1, hc2, hcol, colonTail_fmt ha hb hP]

theorem natDigitsAux_small {fuel n : Nat} (hf : 0 < fuel) (hn : n < 10) :
    natDigitsAux fuel n = [digitChar n] := by
  cases fuel with
  | zero => omega
  | succ f => simp [natDigitsAux, hn]

theorem natDigits_small {n : Nat} (hn : n < 10) : natDigits n = [digitChar n] :=
  natDigitsAux_small (Nat.succ_pos n) hn

theorem natDigits_teens {n : Nat} (hge : 10 ≤ n) (hle : n ≤ 12) :
    natDigits n = ['1', digitChar (n % 10)] := by
  unfold natDigits
  simp only [natDigitsAux]
  rw [if_neg (by omega)]
  have h10 : n / 10 = 1 := by omega
  rw [h10, natDigitsAux_small (by omega) (by omega)]
  rfl

theorem map_toLower_natDigitsAux :
    ∀ fuel n : Nat, (natDigitsAux fuel n).map toLowerChar = natDigitsAux fuel n := by
  intro fuel
  induction fuel with
  | zero => intro n; rfl
  | succ f ih =>
    intro n
    simp only [natDigitsAux]
    split
    · simp [toLowerChar_digitChar]
    · simp [List.map_append, ih, toLowerChar_digitChar]

theorem map_toLower_natDigits (n : Nat) : (natDigits n).map toLowerChar = natDigits n :=
  map_toLower_natDigitsAux (n + 1) n

theorem natDigits_ne_nil (n : Nat) : natDigits n ≠ [] := by
  unfold natDigits
  simp only [natDigitsAux]
  split <;> simp

theorem timeMatch_fmt {d : Nat} (hd1 : 1 ≤ d) (hd2 : d ≤ 12) {a b : Char} {P : List Char}
    (ha : isDigit a = true) (hb : isDigit b = true)
    (hP : P = ['a', 'm'] ∨ P = ['p', 'm']) :
    timeMatch (natDigits d ++ ':' :: a :: b :: ' ' :: P) =
      some ⟨natDigits d, some [a, b], some P⟩ := by
  rcases Nat.lt_or_ge d 10 with hlt | hge
  · rw [natDigits_small hlt]
    exact timeMatch_fmt1 (isDigit_digitChar d) ha hb hP
  · rw [natDigits_teens hge hd2]
    exact timeMatch_fmt2 (isDigit_digitChar _) ha hb hP

/-! ## Round-trip arithmetic -/

theorem hour12_bounds (t : Nat) : 1 ≤ hour12 t ∧ hour12 t ≤ 12 := by
  unfold hour12
  split <;> omega

theorem hour12_mod_am {t : Nat} (h : hourOf t < 12) : hour12 t % 12 = hourOf t := by
  unfold hour12
  split <;> omega

theorem hourOf_lt (t : Nat) : hourOf t < 24 := by
  unfold hourOf
  omega

theorem hour12_mod_pm {t : Nat} (h : 12 ≤ hourOf t) : hour12 t % 12 + 12 = hourOf t := by
  have h24 := hourOf_lt t
  unfold hour12
  split <;> omega

theorem roll_day_eq (now t : Nat) (hsec : t % usPerMin = 0) (h1 : now ≤ t)
    (h2 : t < now + usPerDay) :
    (if dateOf now + hourOf t * usPerHour + minuteOf t * usPerMin < now
     then dateOf now + hourOf t * usPerHour + minuteOf t * usPerMin + usPerDay
     else dateOf now + hourOf t * usPerHour + minuteOf t * usPerMin) = t := by
  simp only [dateOf, hourOf, minuteOf, usPerDay, usPerHour, usPerMin, usPerSec] at *
  split <;> omega

theorem resolveTime_p_false (now h m : Nat) {ps : List Char} (hp : startsWithP ps = false) :
    resolveTime now h m (some ps) =
      (if replaceHM now (h % 12) m < now then replaceHM now (h % 12) m + usPerDay
       else replaceHM now (h % 12) m) := by
  unfold resolveTime
  dsimp only
  rw [hp]
  simp

theorem resolveTime_p_true (now h m : Nat) {ps : List Char} (hp : startsWithP ps = true) :
    resolveTime now h m (some ps) =
      (if replaceHM now (h % 12) m + 12 * usPerHour < now
       then replaceHM now (h % 12) m + 12 * usPerHour + usPerDay
       else replaceHM now (h % 12) m + 12 * usPerHour) := by
  unfold resolveTime
  dsimp only
  rw [hp]
  simp

/-- C6 amended: the editable-field round trip holds for timestamps less
than one day ahead.  For every timestamp `t` with zero seconds and
microseconds and every `now` with `now ≤ t < now + 24h`, formatting `t` as
`H:MM AM/PM` and re-parsing that text at `now` reproduces `t` exactly.
(Beyond 24 hours the formatted text carries only the time of day, so the
parse returns its earlier occurrence — the counterexample.) -/
theorem c6_roundtrip_within_day (now t : Nat) (hsec : t % usPerMin = 0)
    (h1 : now ≤ t) (h2 : t < now + usPerDay) :
    (timeToValue now (timeToString (some t))).value = some t := by
  have hm59 : minuteOf t ≤ 59 := by unfold minuteOf; omega
  have hd12 := hour12_bounds t
  have hmv : digitsToNat [digitChar (minuteOf t / 10), digitChar (minuteOf t % 10)] =
      minuteOf t := by
    rw [digitsToNat_pair, digitVal_digitChar (by omega), digitVal_digitChar (by omega)]
    omega
  by_cases ham : hourOf t < 12
  · have hfmt : timeToString (some t) =
        natDigits (hour12 t) ++ ':' :: digitChar (minuteOf t / 10) ::
          digitChar (minuteOf t % 10) :: ' ' :: ['A', 'M'] := by
      simp [timeToString, pad2, ham]
    have hmap : (timeToString (some t)).map toLowerChar =
        natDigits (hour12 t) ++ ':' :: digitChar (minuteOf t / 10) ::
          digitChar (minuteOf t % 10) :: ' ' :: ['a', 'm'] := by
      rw [hfmt]
      simp [List.map_append, map_toLower_natDigits, toLowerChar_digitChar, lower_colon,
        lower_space, lower_A, lower_M]
    have hne : timeToString (some t) ≠ [] := by
      rw [hfmt]
      simp [natDigits_ne_nil]
    unfold timeToValue
    rw [if_neg hne, hmap,
      timeMatch_fmt hd12.1 hd12.2 (isDigit_digitChar _) (isDigit_digitChar _) (Or.inl rfl)]
    dsimp only
    rw [digitsToNat_natDigits, if_neg (by omega), hmv, if_neg (by omega)]
    dsimp only
    rw [resolveTime_p_false _ _ _ (by decide)]
    have hrep : replaceHM now (hour12 t % 12) (minuteOf t) =
        dateOf now + hourOf t * usPerHour + minuteOf t * usPerMin := by
      rw [replaceHM, hour12_mod_am ham]
    rw [hrep]
    exact congrArg some (roll_day_eq now t hsec h1 h2)
  · have hfmt : timeToString (some t) =
        natDigits (hour12 t) ++ ':' :: digitChar (minuteOf t / 10) ::
          digitChar (minuteOf t % 10) :: ' ' :: ['P', 'M'] := by
      simp [timeToString, pad2, ham]
    have hmap : (timeToString (some t)).map toLowerChar =
        natDigits (hour12 t) ++ ':' :: digitChar (minuteOf t / 10) ::
          digitChar (minuteOf t % 10) :: ' ' :: ['p', 'm'] := by
      rw [hfmt]
      simp [List.map_append, map_toLower_natDigits, toLowerChar_digitChar, lower_colon,
        lower_space, lower_P, lower_M]
    have hne : timeToString (some t) ≠ [] := by
      rw [hfmt]
      simp [natDigits_ne_nil]
    unfold timeToValue
    rw [if_neg hne, hmap,
      timeMatch_fmt hd12.1 hd12.2 (isDigit_digitChar _) (isDigit_digitChar _) (Or.inr rfl)]
    dsimp only
    rw [digitsToNat_natDigits, if_neg (by omega), hmv, if_neg (by omega)]
    dsimp only
    rw [resolveTime_p_true _ _ _ (by decide)]
    have hrep : replaceHM now (hour12 t % 12) (minuteOf t) + 12 * usPerHour =
        dateOf now + hourOf t * usPerHour + minuteOf t * usPerMin := by
      have hpm := hour12_mod_pm (by omega : 12 ≤ hourOf t)
      rw [replaceHM, ← hpm]
      ring
    rw [hrep]
    exact congrArg some (roll_day_eq now t hsec h1 h2)

/-- C6 witness: at `now` = midnight, `t` = 1:30 PM today (within 24
hours) formats as `"1:30 PM"` and re-parses to exactly `t`. -/
theorem c6_roundtrip_within_day_witness :
    (13 * usPerHour + 30 * usPerMin) % usPerMin = 0 ∧
    (0 : Nat) ≤ 13 * usPerHour + 30 * usPerMin ∧
    13 * usPerHour + 30 * usPerMin < 0 + usPerDay ∧
    (timeToValue 0 (timeToString (some (13 * usPerHour + 30 * usPerMin)))).value =
      some (13 * usPerHour + 30 * usPerMin) :=
  ⟨by decide, by decide, by decide,
    c6_roundtrip_within_day 0 (13 * usPerHour + 30 * usPerMin)
      (by decide) (by decide) (by decide)⟩

end XTimer
